import Mathlib

/-!
Verification of the APCI connection layer of IEC 60870-5-104
(`src_py/hat/drivers/iec60870/apci/connection.py`).

The connection endpoint is embedded shallowly: the mutable attributes of the
Python `Connection` object become fields of `ConnState`; each coroutine body
that the claims speak about (`_set_ack`, `_process_apdui`, `_process_apduu`,
the payload branch of `_write_loop`, `_on_supervisory_timeout`,
`_on_response_timeout`, the `finally` drain of `_write_loop`,
`_wait_startdt_con`, `connect`) becomes a pure function from state to state
plus an explicit record of its observable effects (frames written to the TCP
stream, response timers cancelled or armed, condition-variable notification).
Sequence numbers are `Nat` reduced modulo `0x8000` exactly where the source
applies `% 0x8000`.  Timer handles are abstracted: the supervisory handle to
a `Bool` (armed or not), the per-ssn response handles to the `Finset` of keys
of `_waiting_ack_handles` (a Python dict with unique keys; its insertion
order is never observed by the source).
-/

deriving instance DecidableEq for Except

namespace Apci

/-- Sequence-number modulus: all sequence numbers live in `[0, 0x8000)`. -/
def seqMod : Nat := 0x8000

/-- Modelled from the spec: the six U-frame function codes of
`hat.drivers.iec60870.apci.common.ApduFunction` (module `common` is not part
of the sources at hand; the variant list is given by the spec's frame table). -/
inductive ApduFunction where
  | STARTDT_ACT
  | STARTDT_CON
  | STOPDT_ACT
  | STOPDT_CON
  | TESTFR_ACT
  | TESTFR_CON
deriving DecidableEq

/-- Modelled from the spec: the three APDU variants of
`hat.drivers.iec60870.apci.common` (`APDUI`, `APDUS`, `APDUU`); payload bytes
are a `List Nat`.  Only the variant structure is needed here, not the codec. -/
inductive APDU where
  | APDUI (ssn rsn : Nat) (data : List Nat)
  | APDUS (rsn : Nat)
  | APDUU (function : ApduFunction)
deriving DecidableEq

/-- The mutable state of a `Connection` object: the `self._*` attributes set
in `Connection.__init__`, with timer handles abstracted as described above.
`closed` stands for the connection's async group having been closed. -/
structure ConnState where
  always_enabled : Bool
  is_enabled : Bool
  response_timeout : Nat
  supervisory_timeout : Nat
  test_timeout : Nat
  send_window_size : Nat
  receive_window_size : Nat
  ssn : Nat
  rsn : Nat
  ack : Nat
  w : Nat
  supervisory_handle : Bool
  waiting_ack_handles : Finset Nat
  receive_queue : List (List Nat)
  test_event : Bool
  closed : Bool
deriving DecidableEq

/-- `Connection.__init__`: the initial attribute values (sequence counters
zero, no timers, empty queues, `is_enabled = always_enabled`). -/
def connection_init (always_enabled : Bool)
    (response_timeout supervisory_timeout test_timeout : Nat)
    (send_window_size receive_window_size : Nat) : ConnState :=
  { always_enabled := always_enabled
    is_enabled := always_enabled
    response_timeout := response_timeout
    supervisory_timeout := supervisory_timeout
    test_timeout := test_timeout
    send_window_size := send_window_size
    receive_window_size := receive_window_size
    ssn := 0
    rsn := 0
    ack := 0
    w := 0
    supervisory_handle := false
    waiting_ack_handles := ∅
    receive_queue := []
    test_event := false
    closed := false }

/-- The list of ssns traversed by `_set_ack`:
`range(self._ack, ack)` when `ack >= self._ack`, otherwise
`itertools.chain(range(self._ack, 0x8000), range(ack))`. -/
def ackRange (a r : Nat) : List Nat :=
  if a ≤ r then List.range' a (r - a)
  else List.range' a (seqMod - a) ++ List.range' 0 r

/-- Sequentially pop each key of `ssns` from the dict `m`
(`self._waiting_ack_handles.pop(ssn, None)` followed by the
`if not handle: raise` check): `none` as soon as a key is absent, otherwise
the dict with all keys removed.  A successful pop also cancels the popped
response-timer handle. -/
def popAll : Finset Nat → List Nat → Option (Finset Nat)
  | m, [] => some m
  | m, s :: rest => if s ∈ m then popAll (m.erase s) rest else none

/-- Result of a successful `_set_ack`: the new state, the ssns whose
response-timer handles were cancelled, and whether the
`_waiting_ack_cv.notify_all()` call was reached. -/
structure SetAckResult where
  state : ConnState
  cancelled : List Nat
  notified : Bool
deriving DecidableEq

/-- `Connection._set_ack`: traverse the modular range of newly acknowledged
ssns, popping and cancelling each response-timer entry; raise
`Exception` when an entry is missing; on success store the new `ack`
and notify writers waiting on the window condition variable. -/
def set_ack (st : ConnState) (ack : Nat) : Except String SetAckResult :=
  let ssns := ackRange st.ack ack
  match popAll st.waiting_ack_handles ssns with
  | none => .error "received ack for unsent sequence number"
  | some m =>
      .ok { state := { st with ack := ack, waiting_ack_handles := m }
            cancelled := ssns
            notified := true }

/-- Modular distance from `a` to `b` in the 15-bit sequence-number circle:
the number of unit increments modulo `0x8000` leading from `a` to `b`.  Used
only in statements, to describe the modular intervals the source traverses. -/
def mdist (a b : Nat) : Nat := (b + seqMod - a) % seqMod

theorem mdist_eq (a b : Nat) (ha : a < seqMod) (hb : b < seqMod) :
    mdist a b = if a ≤ b then b - a else b + seqMod - a := by
  unfold mdist seqMod at *
  split
  · have h1 : b + 32768 - a = (b - a) + 32768 := by omega
    rw [h1, Nat.add_mod_right, Nat.mod_eq_of_lt (by omega)]
  · exact Nat.mod_eq_of_lt (by omega)

/-- The list `_set_ack` traverses is exactly the modular half-open interval
from the old `ack` to the advertised `N_R`. -/
theorem mem_ackRange (a r x : Nat) (ha : a < seqMod) (hr : r < seqMod) :
    x ∈ ackRange a r ↔ x < seqMod ∧ mdist a x < mdist a r := by
  unfold ackRange
  split
  · rename_i hle
    rw [List.mem_range'_1, mdist_eq a r ha hr, if_pos hle]
    constructor
    · rintro ⟨hax, hxr⟩
      have hx : x < seqMod := by unfold seqMod at *; omega
      refine ⟨hx, ?_⟩
      rw [mdist_eq a x ha hx, if_pos hax]
      unfold seqMod at *; omega
    · rintro ⟨hx, hd⟩
      rw [mdist_eq a x ha hx] at hd
      by_cases hax : a ≤ x
      · rw [if_pos hax] at hd; unfold seqMod at *; omega
      · rw [if_neg hax] at hd; unfold seqMod at *; omega
  · rename_i hgt
    rw [List.mem_append, List.mem_range'_1, List.mem_range'_1,
      mdist_eq a r ha hr, if_neg hgt]
    constructor
    · rintro (⟨hax, hxm⟩ | ⟨_, hxr⟩)
      · have hx : x < seqMod := by unfold seqMod at *; omega
        refine ⟨hx, ?_⟩
        rw [mdist_eq a x ha hx, if_pos hax]
        unfold seqMod at *; omega
      · have hx : x < seqMod := by unfold seqMod at *; omega
        refine ⟨hx, ?_⟩
        rw [mdist_eq a x ha hx]
        by_cases hax : a ≤ x
        · rw [if_pos hax]; unfold seqMod at *; omega
        · rw [if_neg hax]; unfold seqMod at *; omega
    · rintro ⟨hx, hd⟩
      rw [mdist_eq a x ha hx] at hd
      by_cases hax : a ≤ x
      · left; unfold seqMod at *; omega
      · right
        rw [if_neg hax] at hd
        unfold seqMod at *; omega

theorem ackRange_nodup (a r : Nat) :
    (ackRange a r).Nodup := by
  unfold ackRange
  split
  · exact List.nodup_range' _ _
  · refine (List.nodup_range' _ _).append (List.nodup_range' _ _) ?_
    intro x hx1 hx2
    rw [List.mem_range'_1] at hx1 hx2
    unfold seqMod at *; omega

theorem popAll_none_of_missing {m : Finset Nat} {l : List Nat} {x : Nat}
    (hx : x ∈ l) (hm : x ∉ m) : popAll m l = none := by
  induction l generalizing m with
  | nil => cases hx
  | cons s rest ih =>
      unfold popAll
      split
      · rename_i hs
        rcases List.mem_cons.mp hx with rfl | hx'
        · exact absurd hs hm
        · exact ih hx' (fun hc => hm (Finset.mem_of_mem_erase hc))
      · rfl

theorem popAll_some_of_mem {m : Finset Nat} {l : List Nat}
    (hnd : l.Nodup) (hall : ∀ x ∈ l, x ∈ m) :
    popAll m l = some (m \ l.toFinset) := by
  induction l generalizing m with
  | nil => simp [popAll]
  | cons s rest ih =>
      unfold popAll
      rw [if_pos (hall s (List.mem_cons_self s rest))]
      have hnd' := (List.nodup_cons.mp hnd).2
      have hs : s ∉ rest := (List.nodup_cons.mp hnd).1
      rw [ih hnd' (fun x hx => Finset.mem_erase.mpr
        ⟨fun hc => hs (by rw [← hc]; exact hx),
         hall x (List.mem_cons_of_mem s hx)⟩)]
      congr 1
      ext y
      simp only [Finset.mem_sdiff, Finset.mem_erase, List.toFinset_cons,
        Finset.mem_insert, List.mem_toFinset]
      constructor
      · rintro ⟨⟨hy1, hy2⟩, hy3⟩
        exact ⟨hy2, fun hc => hc.elim hy1 hy3⟩
      · rintro ⟨hy1, hy2⟩
        exact ⟨⟨fun hc => hy2 (Or.inl hc), hy1⟩, fun hc => hy2 (Or.inr hc)⟩

/-- C7: Ack-advance is idempotent: applying `_set_ack` with the advertised
receive sequence number equal to the current `ack` pops nothing, cancels
nothing, and leaves the connection state unchanged (the condition variable is
still notified, but no state field moves). -/
theorem ack_advance_idempotent (st : ConnState) :
    set_ack st st.ack = .ok { state := st, cancelled := [], notified := true } := by
  have hrange : ackRange st.ack st.ack = [] := by
    simp [ackRange]
  simp [set_ack, hrange, popAll]

/-- `Connection._start_supervisory_timeout`: arm the supervisory timer only
when no handle is currently armed. -/
def start_supervisory_timeout (st : ConnState) : ConnState :=
  if st.supervisory_handle then st
  else { st with supervisory_handle := true }

/-- `Connection._stop_supervisory_timeout`: cancel the armed supervisory
timer, if any, and clear the handle. -/
def stop_supervisory_timeout (st : ConnState) : ConnState :=
  if st.supervisory_handle then { st with supervisory_handle := false }
  else st

/-- `Connection._on_supervisory_timeout`: clear the handle, emit an S-frame
carrying the current `rsn`, and reset the receive accumulator `w`. -/
def on_supervisory_timeout (st : ConnState) : ConnState × List APDU :=
  ({ st with supervisory_handle := false, w := 0 }, [APDU.APDUS st.rsn])

/-- `Connection._on_response_timeout`: close the connection. -/
def on_response_timeout (st : ConnState) : ConnState :=
  { st with closed := true }

/-- `Connection._process_apduu`: dispatch on the U-frame function code,
returning the new state and the frames written to the TCP stream, in
emission order. -/
def process_apduu (st : ConnState) (f : ApduFunction) : ConnState × List APDU :=
  match f with
  | .STARTDT_ACT =>
      ({ st with is_enabled := true }, [APDU.APDUU .STARTDT_CON])
  | .STOPDT_ACT =>
      if st.always_enabled then (st, [])
      else
        let st1 := { st with w := 0 }
        let st2 := stop_supervisory_timeout st1
        let st3 := { st2 with is_enabled := false }
        (st3, [APDU.APDUS st.rsn, APDU.APDUU .STOPDT_CON])
  | .TESTFR_ACT => (st, [APDU.APDUU .TESTFR_CON])
  | .TESTFR_CON => ({ st with test_event := true }, [])
  | _ => (st, [])

/-- Result of a reader step on an I-frame (`_process_apdui`): the new state,
the frames written to the TCP stream, the cancelled response timers, and
whether the window condition variable was notified. -/
structure IStepResult where
  state : ConnState
  emitted : List APDU
  cancelled : List Nat
  notified : Bool
deriving DecidableEq

/-- `Connection._process_apdui`: ack-advance with the frame's `N_R`; raise
when the frame's `N_S` differs from the expected `rsn`; advance `rsn`; arm
the supervisory timer; enqueue a non-empty payload; bump `w` and, at the
receive-window threshold, emit an S-frame, reset `w` and cancel the
supervisory timer. -/
def process_apdui (st : ConnState) (nS nR : Nat) (d : List Nat) :
    Except String IStepResult :=
  match set_ack st nR with
  | .error e => .error e
  | .ok r =>
      let st1 := r.state
      if nS ≠ st1.rsn then .error "missing apdu sequence number"
      else
        let st2 := { st1 with rsn := (st1.rsn + 1) % seqMod }
        let st3 := start_supervisory_timeout st2
        let st4 :=
          if d ≠ [] then { st3 with receive_queue := st3.receive_queue ++ [d] }
          else st3
        let st5 := { st4 with w := st4.w + 1 }
        if st5.receive_window_size ≤ st5.w then
          .ok { state :=
                  stop_supervisory_timeout { st5 with w := 0 }
                emitted := [APDU.APDUS st5.rsn]
                cancelled := r.cancelled
                notified := r.notified }
        else
          .ok { state := st5
                emitted := []
                cancelled := r.cancelled
                notified := r.notified }

/-- Outcome of the payload branch of `Connection._write_loop` for one
dequeued user payload.  `blocked` models suspension on the
`_waiting_ack_cv.wait_for` condition (the window is full); `sent` carries the
new state, the emitted I-frame, and the ssn and duration of the armed
response timer (whose expiry callback is `_on_response_timeout`). -/
inductive WriteOutcome where
  | failed (msg : String)
  | blocked
  | discarded
  | sent (state : ConnState) (frame : APDU) (armed_ssn armed_duration : Nat)
deriving DecidableEq

/-- The payload branch of `Connection._write_loop`: the defensive ssn-reuse
check, the wait for window capacity, the `is_enabled` check (discard when
disabled), then emission of `I(ssn, rsn, payload)`, reset of `w`,
cancellation of the supervisory timer, arming of the response timer for this
`ssn` with duration `response_timeout`, and advancement of `ssn`. -/
def write_step (st : ConnState) (d : List Nat) : WriteOutcome :=
  if st.ssn ∈ st.waiting_ack_handles then
    .failed "can not reuse already registered ssn"
  else if st.send_window_size ≤ st.waiting_ack_handles.card then
    .blocked
  else if st.is_enabled = false then
    .discarded
  else
    let st1 := { st with w := 0 }
    let st2 := stop_supervisory_timeout st1
    let st3 := { st2 with
      waiting_ack_handles := insert st2.ssn st2.waiting_ack_handles }
    let st4 := { st3 with ssn := (st3.ssn + 1) % seqMod }
    .sent st4 (APDU.APDUI st.ssn st.rsn d) st.ssn st.response_timeout

theorem stop_supervisory_eq (st : ConnState) :
    stop_supervisory_timeout st = { st with supervisory_handle := false } := by
  unfold stop_supervisory_timeout
  split
  · rfl
  · rename_i h
    cases st
    simp_all

theorem start_supervisory_eq (st : ConnState) :
    start_supervisory_timeout st = { st with supervisory_handle := true } := by
  unfold start_supervisory_timeout
  split
  · rename_i h
    cases st
    simp_all
  · rfl

theorem set_ack_ok_state (st : ConnState) (r : Nat) (res : SetAckResult)
    (h : set_ack st r = .ok res) :
    ∃ m, res.state = { st with ack := r, waiting_ack_handles := m } ∧
      res.cancelled = ackRange st.ack r ∧ res.notified = true := by
  unfold set_ack at h
  cases hp : popAll st.waiting_ack_handles (ackRange st.ack r) with
  | none => simp [hp] at h
  | some m =>
      simp [hp] at h
      exact ⟨m, by rw [← h], by rw [← h], by rw [← h]⟩

/-- A concrete connection state used to instantiate theorems with hypotheses:
a server-mode connection that has sent frames 5, 6, 7 (so `ssn = 8`,
`ack = 5`, and response timers are outstanding for 5, 6, 7). -/
def exState : ConnState :=
  { connection_init false 15 10 20 12 8 with
      ssn := 8
      ack := 5
      waiting_ack_handles := {5, 6, 7} }

/-- C1: `_set_ack` with advertised `N_R = r` and current `ack = a` acts on
the modular half-open interval from `a` to `r` of newly acknowledged ssns:
when every such ssn has a response-timer entry, all those entries are removed
(and their timers cancelled), the new `ack` is `r`, and the writer waiting on
the window condition variable is notified; when some ssn of the interval has
no entry, the call raises and the connection fails. -/
theorem set_ack_spec (st : ConnState) (r : Nat)
    (ha : st.ack < seqMod) (hr : r < seqMod) :
    (∀ x, x ∈ ackRange st.ack r ↔ x < seqMod ∧ mdist st.ack x < mdist st.ack r) ∧
    ((∀ x ∈ ackRange st.ack r, x ∈ st.waiting_ack_handles) →
      set_ack st r = .ok
        { state := { st with
            ack := r
            waiting_ack_handles :=
              st.waiting_ack_handles \ (ackRange st.ack r).toFinset }
          cancelled := ackRange st.ack r
          notified := true }) ∧
    ((∃ x ∈ ackRange st.ack r, x ∉ st.waiting_ack_handles) →
      set_ack st r = .error "received ack for unsent sequence number") := by
  refine ⟨fun x => mem_ackRange st.ack r x ha hr, ?_, ?_⟩
  · intro hall
    simp [set_ack, popAll_some_of_mem (ackRange_nodup st.ack r) hall]
  · rintro ⟨x, hx, hxm⟩
    simp [set_ack, popAll_none_of_missing hx hxm]

theorem set_ack_spec_witness :
    set_ack exState 7 = .ok
      { state := { exState with
          ack := 7
          waiting_ack_handles :=
            exState.waiting_ack_handles \ (ackRange exState.ack 7).toFinset }
        cancelled := ackRange exState.ack 7
        notified := true } :=
  (set_ack_spec exState 7 (by decide) (by decide)).2.1 (by decide)

/-- C9: when the keys of `waiting_ack_handles` are exactly the modular
interval from `ack` to `ssn` (the invariant of a running connection), an
advertised `N_R` strictly beyond `ssn` in modular distance — i.e. outside
the modular closed interval from `ack` to `ssn` — makes `_set_ack` raise the
ack-for-unsent error, because the traversal necessarily reaches `ssn`, which
has no entry. -/
theorem set_ack_rejects_past_window (st : ConnState) (r : Nat)
    (ha : st.ack < seqMod) (hs : st.ssn < seqMod) (hr : r < seqMod)
    (hkeys : st.waiting_ack_handles = (ackRange st.ack st.ssn).toFinset)
    (hout : mdist st.ack st.ssn < mdist st.ack r) :
    set_ack st r = .error "received ack for unsent sequence number" := by
  have hssn_in : st.ssn ∈ ackRange st.ack r :=
    (mem_ackRange st.ack r st.ssn ha hr).mpr ⟨hs, hout⟩
  have hssn_not : st.ssn ∉ st.waiting_ack_handles := by
    rw [hkeys, List.mem_toFinset]
    intro hc
    exact lt_irrefl _ ((mem_ackRange st.ack st.ssn st.ssn ha hs).mp hc).2
  simp [set_ack, popAll_none_of_missing hssn_in hssn_not]

theorem set_ack_rejects_past_window_witness :
    set_ack exState 9 = .error "received ack for unsent sequence number" :=
  set_ack_rejects_past_window exState 9 (by decide) (by decide) (by decide)
    (by decide) (by decide)

/-- C2: for every received I-frame the reader performs, in order:
ack-advance with the frame's `N_R` (an ack-advance failure fails the whole
step); failure when the frame's `N_S` differs from the current `rsn`;
advance of `rsn` modulo `2^15`; arming of the supervisory timer; enqueueing
of the payload exactly when it is non-empty; and increment of `w`, with
emission of `S(rsn)`, reset of `w` and cancellation of the supervisory timer
exactly when `w` reaches `receive_window_size`. -/
theorem process_apdui_spec (st : ConnState) (nS nR : Nat) (d : List Nat)
    (hw : st.w < st.receive_window_size) :
    (∀ e, set_ack st nR = .error e → process_apdui st nS nR d = .error e) ∧
    (∀ res, set_ack st nR = .ok res → nS ≠ st.rsn →
        process_apdui st nS nR d = .error "missing apdu sequence number") ∧
    (∀ res, set_ack st nR = .ok res → nS = st.rsn →
        ∃ out, process_apdui st nS nR d = .ok out ∧
          out.state.ack = nR ∧
          out.state.waiting_ack_handles = res.state.waiting_ack_handles ∧
          out.cancelled = res.cancelled ∧
          out.notified = res.notified ∧
          out.state.rsn = (st.rsn + 1) % seqMod ∧
          out.state.ssn = st.ssn ∧
          out.state.is_enabled = st.is_enabled ∧
          out.state.receive_queue =
            (if d = [] then st.receive_queue else st.receive_queue ++ [d]) ∧
          (st.w + 1 = st.receive_window_size →
            out.emitted = [APDU.APDUS ((st.rsn + 1) % seqMod)] ∧
            out.state.w = 0 ∧ out.state.supervisory_handle = false) ∧
          (st.w + 1 ≠ st.receive_window_size →
            out.emitted = [] ∧ out.state.w = st.w + 1 ∧
            out.state.supervisory_handle = true)) := by
  refine ⟨?_, ?_, ?_⟩
  · intro e he
    simp [process_apdui, he]
  · intro res hres hns
    obtain ⟨m, hstate, _, _⟩ := set_ack_ok_state st nR res hres
    have hrsn : res.state.rsn = st.rsn := by rw [hstate]
    simp [process_apdui, hres, hrsn, hns]
  · intro res hres hns
    obtain ⟨m, hstate, hcanc, hnot⟩ := set_ack_ok_state st nR res hres
    have hrsn : res.state.rsn = st.rsn := by rw [hstate]
    unfold process_apdui
    rw [hres]
    simp only [hrsn, hns, ne_eq, not_true_eq_false, if_false, hstate,
      start_supervisory_eq, stop_supervisory_eq]
    by_cases hd : d = [] <;>
      by_cases hth : st.receive_window_size ≤ st.w + 1 <;>
        simp [hd, hth, hcanc, hnot, hstate] <;>
          omega

theorem process_apdui_spec_witness :
    ∃ out, process_apdui exState 0 7 [1, 2] = .ok out ∧
      out.state.ack = 7 ∧
      out.state.waiting_ack_handles =
        ({ exState with ack := 7, waiting_ack_handles := {7} } : ConnState
          ).waiting_ack_handles ∧
      out.cancelled = [5, 6] ∧
      out.notified = true ∧
      out.state.rsn = (exState.rsn + 1) % seqMod ∧
      out.state.ssn = exState.ssn ∧
      out.state.is_enabled = exState.is_enabled ∧
      out.state.receive_queue =
        (if ([1, 2] : List Nat) = [] then exState.receive_queue
         else exState.receive_queue ++ [[1, 2]]) ∧
      (exState.w + 1 = exState.receive_window_size →
        out.emitted = [APDU.APDUS ((exState.rsn + 1) % seqMod)] ∧
        out.state.w = 0 ∧ out.state.supervisory_handle = false) ∧
      (exState.w + 1 ≠ exState.receive_window_size →
        out.emitted = [] ∧ out.state.w = exState.w + 1 ∧
        out.state.supervisory_handle = true) :=
  (process_apdui_spec exState 0 7 [1, 2] (by decide)).2.2
    { state := { exState with ack := 7, waiting_ack_handles := {7} }
      cancelled := [5, 6]
      notified := true }
    (by decide) rfl

/-- C3: for every user payload the writer dequeues (at a state where the
defensive ssn-reuse check passes, as on every reachable state), the writer
first waits until the number of outstanding unacknowledged frames is
strictly below `send_window_size` (`blocked` while it is not); once capacity
exists, a disabled connection discards the payload without emitting
anything, and an enabled one emits `I(ssn, rsn, payload)`, resets `w`,
cancels the supervisory timer, arms a response timer for this `ssn` with
duration `response_timeout` whose expiry closes the connection, and advances
`ssn` modulo `2^15`. -/
theorem write_step_spec (st : ConnState) (d : List Nat)
    (hssn : st.ssn ∉ st.waiting_ack_handles) :
    (st.send_window_size ≤ st.waiting_ack_handles.card →
        write_step st d = .blocked) ∧
    (st.waiting_ack_handles.card < st.send_window_size →
        st.is_enabled = false → write_step st d = .discarded) ∧
    (st.waiting_ack_handles.card < st.send_window_size →
        st.is_enabled = true →
        write_step st d = .sent
          { st with
              w := 0
              supervisory_handle := false
              waiting_ack_handles := insert st.ssn st.waiting_ack_handles
              ssn := (st.ssn + 1) % seqMod }
          (APDU.APDUI st.ssn st.rsn d) st.ssn st.response_timeout) ∧
    (∀ s : ConnState, (on_response_timeout s).closed = true) := by
  refine ⟨?_, ?_, ?_, fun s => rfl⟩
  · intro hfull
    simp [write_step, hssn, hfull]
  · intro hcap hdis
    rw [write_step, if_neg hssn, if_neg (by omega), if_pos hdis]
  · intro hcap hen
    rw [write_step, if_neg hssn, if_neg (by omega), if_neg (by simp [hen])]
    simp [stop_supervisory_eq]

theorem write_step_spec_witness :
    write_step { exState with is_enabled := true } [9] = .sent
      { { exState with is_enabled := true } with
          w := 0
          supervisory_handle := false
          waiting_ack_handles :=
            insert ({ exState with is_enabled := true } : ConnState).ssn
              ({ exState with is_enabled := true } : ConnState
                ).waiting_ack_handles
          ssn := (({ exState with is_enabled := true } : ConnState).ssn + 1)
            % seqMod }
      (APDU.APDUI ({ exState with is_enabled := true } : ConnState).ssn
        ({ exState with is_enabled := true } : ConnState).rsn [9])
      ({ exState with is_enabled := true } : ConnState).ssn
      ({ exState with is_enabled := true } : ConnState).response_timeout :=
  (write_step_spec { exState with is_enabled := true } [9]
      (by decide)).2.2.1 (by decide) rfl

/-- C5: `STOPDT_ACT` has an effect only when `always_enabled` is false, and
then the endpoint emits `S(rsn)` followed by `U(STOPDT_CON)` — in that wire
order — while resetting `w`, cancelling the supervisory timer and clearing
`is_enabled`; a payload dequeued afterwards (with window capacity) is
discarded by the writer without any wire emission. -/
theorem stopdt_spec (st : ConnState) :
    (st.always_enabled = true → process_apduu st .STOPDT_ACT = (st, [])) ∧
    (st.always_enabled = false →
      process_apduu st .STOPDT_ACT =
        ({ st with w := 0, supervisory_handle := false, is_enabled := false },
         [APDU.APDUS st.rsn, APDU.APDUU .STOPDT_CON])) ∧
    (st.always_enabled = false → st.ssn ∉ st.waiting_ack_handles →
      st.waiting_ack_handles.card < st.send_window_size →
      ∀ d, write_step (process_apduu st .STOPDT_ACT).1 d = .discarded) := by
  refine ⟨?_, ?_, ?_⟩
  · intro h
    simp [process_apduu, h]
  · intro h
    simp [process_apduu, h, stop_supervisory_eq]
  · intro h hssn hcap d
    simp only [process_apduu, h, Bool.false_eq_true, if_false,
      stop_supervisory_eq]
    rw [write_step, if_neg hssn, if_neg (by simp; omega), if_pos rfl]

theorem stopdt_spec_witness :
    process_apduu exState .STOPDT_ACT =
      ({ exState with
          w := 0
          supervisory_handle := false
          is_enabled := false },
       [APDU.APDUS exState.rsn, APDU.APDUU .STOPDT_CON]) ∧
    write_step (process_apduu exState .STOPDT_ACT).1 [3] = .discarded :=
  ⟨(stopdt_spec exState).2.1 rfl,
   (stopdt_spec exState).2.2 rfl (by decide) (by decide) [3]⟩

theorem popAll_subset {l : List Nat} :
    ∀ {m m' : Finset Nat}, popAll m l = some m' → m' ⊆ m := by
  induction l with
  | nil =>
      intro m m' h
      simp [popAll] at h
      rw [← h]
  | cons s rest ih =>
      intro m m' h
      unfold popAll at h
      split at h
      · exact (ih h).trans (Finset.erase_subset _ _)
      · cases h

theorem set_ack_ok_subset {st : ConnState} {r : Nat} {res : SetAckResult}
    (h : set_ack st r = .ok res) :
    res.state.waiting_ack_handles ⊆ st.waiting_ack_handles := by
  unfold set_ack at h
  cases hp : popAll st.waiting_ack_handles (ackRange st.ack r) with
  | none => simp [hp] at h
  | some m =>
      simp [hp] at h
      rw [← h]
      exact popAll_subset hp

theorem write_step_sent_shape {st : ConnState} {d : List Nat}
    {st' : ConnState} {fr : APDU} {a dur : Nat}
    (h : write_step st d = .sent st' fr a dur) :
    st.waiting_ack_handles.card < st.send_window_size ∧
    st' = { st with
        w := 0
        supervisory_handle := false
        waiting_ack_handles := insert st.ssn st.waiting_ack_handles
        ssn := (st.ssn + 1) % seqMod } := by
  unfold write_step at h
  split at h
  · cases h
  split at h
  · cases h
  split at h
  · cases h
  rename_i h1 h2 h3
  simp only [stop_supervisory_eq, WriteOutcome.sent.injEq] at h
  exact ⟨by omega, by rw [← h.1]⟩

/-- One cooperative operation of a connection between suspension points:
a reader dispatch (`_process_apduu`, the ack-advance of `_process_apdus`,
`_process_apdui`), a writer payload turn (frame sent, or payload discarded
while disabled), or the supervisory-timeout handler.  A raised exception
closes the connection instead of producing a next state, so only `ok`
outcomes step. -/
inductive ConnStep : ConnState → ConnState → Prop where
  | apduu (st : ConnState) (f : ApduFunction) :
      ConnStep st (process_apduu st f).1
  | apdus (st : ConnState) (r : Nat) (res : SetAckResult) :
      set_ack st r = .ok res → ConnStep st res.state
  | apdui (st : ConnState) (nS nR : Nat) (d : List Nat) (out : IStepResult) :
      process_apdui st nS nR d = .ok out → ConnStep st out.state
  | write_sent (st : ConnState) (d : List Nat) (st' : ConnState) (fr : APDU)
      (a dur : Nat) :
      write_step st d = .sent st' fr a dur → ConnStep st st'
  | write_discarded (st : ConnState) (d : List Nat) :
      write_step st d = .discarded → ConnStep st st
  | supervisory (st : ConnState) :
      ConnStep st (on_supervisory_timeout st).1

theorem connStep_preserves {st st' : ConnState} (h : ConnStep st st')
    (hinv : st.waiting_ack_handles.card ≤ st.send_window_size ∧
      st.w < st.receive_window_size) :
    st'.waiting_ack_handles.card ≤ st'.send_window_size ∧
    st'.w < st'.receive_window_size := by
  obtain ⟨hcard, hw⟩ := hinv
  cases h with
  | apduu f =>
      cases f <;> simp [process_apduu]
      -- STOPDT_ACT is the only function that touches `w`
      case STOPDT_ACT =>
        split
        · exact ⟨hcard, hw⟩
        · simp [stop_supervisory_eq]
          exact ⟨hcard, by omega⟩
      all_goals exact ⟨hcard, hw⟩
  | apdus r res hres =>
      obtain ⟨m, hstate, _, _⟩ := set_ack_ok_state st r res hres
      have hsub := set_ack_ok_subset hres
      rw [hstate] at hsub ⊢
      exact ⟨le_trans (Finset.card_le_card hsub) hcard, hw⟩
  | apdui nS nR d out hout =>
      unfold process_apdui at hout
      cases hres : set_ack st nR with
      | error e => rw [hres] at hout; cases hout
      | ok res =>
          rw [hres] at hout
          obtain ⟨m, hstate, _, _⟩ := set_ack_ok_state st nR res hres
          have hsub := set_ack_ok_subset hres
          rw [hstate] at hsub
          simp only [start_supervisory_eq, stop_supervisory_eq, hstate]
            at hout
          split at hout
          · cases hout
          · split at hout
            · split at hout
              · simp only [Except.ok.injEq] at hout
                rw [← hout]
                exact ⟨le_trans (Finset.card_le_card hsub) hcard,
                  Nat.lt_of_le_of_lt (Nat.zero_le st.w) hw⟩
              · rename_i hth
                simp only [Except.ok.injEq] at hout
                rw [← hout]
                exact ⟨le_trans (Finset.card_le_card hsub) hcard,
                  Nat.lt_of_not_le hth⟩
            · split at hout
              · simp only [Except.ok.injEq] at hout
                rw [← hout]
                exact ⟨le_trans (Finset.card_le_card hsub) hcard,
                  Nat.lt_of_le_of_lt (Nat.zero_le st.w) hw⟩
              · rename_i hth
                simp only [Except.ok.injEq] at hout
                rw [← hout]
                exact ⟨le_trans (Finset.card_le_card hsub) hcard,
                  Nat.lt_of_not_le hth⟩
  | write_sent d st' fr a dur hsent =>
      obtain ⟨hlt, hshape⟩ := write_step_sent_shape hsent
      rw [hshape]
      refine ⟨?_, by simpa using by omega⟩
      simp only
      calc (insert st.ssn st.waiting_ack_handles).card
          ≤ st.waiting_ack_handles.card + 1 := Finset.card_insert_le _ _
        _ ≤ st.send_window_size := by omega
  | write_discarded d _ => exact ⟨hcard, hw⟩
  | supervisory =>
      simp [on_supervisory_timeout]
      exact ⟨hcard, by omega⟩

/-- C4: on every state reachable from a freshly constructed connection by
reader, writer, ack-advance and supervisory-timeout operations, the number
of outstanding unacknowledged frames is at most `send_window_size` and the
receive accumulator `w` is strictly below `receive_window_size` (the
configured window sizes being positive). -/
theorem window_invariants (ae : Bool) (t1 t2 t3 k wsz : Nat)
    (hk : 0 < k) (hwsz : 0 < wsz) (st : ConnState)
    (hreach : Relation.ReflTransGen ConnStep
      (connection_init ae t1 t2 t3 k wsz) st) :
    st.waiting_ack_handles.card ≤ st.send_window_size ∧
    st.w < st.receive_window_size := by
  induction hreach with
  | refl => exact ⟨by simp [connection_init], by simpa [connection_init]⟩
  | tail _ hstep ih => exact connStep_preserves hstep ih

theorem window_invariants_witness :
    (connection_init false 15 10 20 12 8).waiting_ack_handles.card ≤
      (connection_init false 15 10 20 12 8).send_window_size ∧
    (connection_init false 15 10 20 12 8).w <
      (connection_init false 15 10 20 12 8).receive_window_size :=
  window_invariants false 15 10 20 12 8 (by decide) (by decide) _
    Relation.ReflTransGen.refl

/-- `_wait_startdt_con`: consume inbound APDUs until a `U(STARTDT_CON)`
arrives.  Non-U frames (S- and I-frames) are silently discarded,
`U(TESTFR_ACT)` is answered with `U(TESTFR_CON)`, every other U-frame is
ignored.  Returns the replies emitted in order, and whether the
`STARTDT_CON` was found before the inbound stream ran out (exhaustion of the
list models the `response_timeout` bound expiring). -/
def wait_startdt_con : List APDU → List APDU × Bool
  | [] => ([], false)
  | .APDUU .STARTDT_CON :: _ => ([], true)
  | .APDUU .TESTFR_ACT :: rest =>
      let (es, found) := wait_startdt_con rest
      (APDU.APDUU .TESTFR_CON :: es, found)
  | _ :: rest => wait_startdt_con rest

/-- Outcome of `connect`: the frames written to the TCP stream in order, the
constructed `Connection` state on success, and whether the TCP stream was
closed (the failure path closes it and re-raises to the caller). -/
structure ConnectOutcome where
  emitted : List APDU
  conn : Option ConnState
  tcp_closed : Bool
deriving DecidableEq

/-- `connect`: after TCP establishment, emit `U(STARTDT_ACT)`, run
`_wait_startdt_con` bounded by `response_timeout`, and on success construct
a `Connection` with `always_enabled = true`; on failure close the TCP
stream and surface the error. -/
def connect (t1 t2 t3 k wsz : Nat) (inbound : List APDU) : ConnectOutcome :=
  let (replies, found) := wait_startdt_con inbound
  if found then
    { emitted := APDU.APDUU .STARTDT_ACT :: replies
      conn := some (connection_init true t1 t2 t3 k wsz)
      tcp_closed := false }
  else
    { emitted := APDU.APDUU .STARTDT_ACT :: replies
      conn := none
      tcp_closed := true }

/-- C6: `connect` first emits `U(STARTDT_ACT)`; during the bounded wait for
`U(STARTDT_CON)`, S- and I-frames are silently discarded, `U(TESTFR_ACT)` is
answered with `U(TESTFR_CON)` and every other U-frame is ignored; on success
the constructed connection has `always_enabled` and `is_enabled` both true;
on timeout (exhausted inbound stream) the TCP stream is closed and no
connection is returned. -/
theorem connect_spec (t1 t2 t3 k wsz : Nat) (inbound : List APDU) :
    ((connect t1 t2 t3 k wsz inbound).emitted.head? =
      some (APDU.APDUU .STARTDT_ACT)) ∧
    (∀ n r d rest, wait_startdt_con (.APDUS n :: rest) = wait_startdt_con rest
      ∧ wait_startdt_con (.APDUI n r d :: rest) = wait_startdt_con rest) ∧
    (∀ rest, wait_startdt_con (.APDUU .TESTFR_ACT :: rest) =
      ((APDU.APDUU .TESTFR_CON :: (wait_startdt_con rest).1),
        (wait_startdt_con rest).2)) ∧
    (∀ rest, ∀ f, f ≠ ApduFunction.STARTDT_CON → f ≠ .TESTFR_ACT →
      wait_startdt_con (.APDUU f :: rest) = wait_startdt_con rest) ∧
    (∀ rest, wait_startdt_con (.APDUU .STARTDT_CON :: rest) = ([], true)) ∧
    (∀ c, (connect t1 t2 t3 k wsz inbound).conn = some c →
      c.always_enabled = true ∧ c.is_enabled = true) ∧
    ((wait_startdt_con inbound).2 = false →
      (connect t1 t2 t3 k wsz inbound).conn = none ∧
      (connect t1 t2 t3 k wsz inbound).tcp_closed = true) := by
  refine ⟨?_, ?_, ?_, ?_, ?_, ?_, ?_⟩
  · unfold connect
    cases h : wait_startdt_con inbound with
    | mk replies found => cases found <;> simp
  · intro n r d rest
    constructor <;> rfl
  · intro rest
    rfl
  · intro rest f h1 h2
    cases f <;> first | rfl | exact absurd rfl h1 | exact absurd rfl h2
  · intro rest
    rfl
  · intro c hc
    unfold connect at hc
    cases h : wait_startdt_con inbound with
    | mk replies found =>
        rw [h] at hc
        cases found <;> simp at hc
        rw [← hc]
        exact ⟨rfl, rfl⟩
  · intro hnf
    unfold connect
    rw [show wait_startdt_con inbound =
      ((wait_startdt_con inbound).1, false) from by rw [← hnf]]
    simp

theorem connect_spec_witness :
    ((connect 15 10 20 12 8
        [.APDUS 0, .APDUU .TESTFR_ACT, .APDUU .STARTDT_CON]).emitted.head? =
      some (APDU.APDUU .STARTDT_ACT)) ∧
    (connection_init true 15 10 20 12 8).always_enabled = true ∧
    (connection_init true 15 10 20 12 8).is_enabled = true :=
  ⟨(connect_spec 15 10 20 12 8
      [.APDUS 0, .APDUU .TESTFR_ACT, .APDUU .STARTDT_CON]).1,
   (connect_spec 15 10 20 12 8
      [.APDUS 0, .APDUU .TESTFR_ACT, .APDUU .STARTDT_CON]).2.2.2.2.2.1
     (connection_init true 15 10 20 12 8) (by decide)⟩

/-- Modelled from the spec: the external `hat.aio.Queue` used for the send
and receive queues (package `hat-aio`, outside these sources).  After
`close()`, `put_nowait` raises `QueueClosedError`, while `get` still returns
already-delivered items in order and raises `QueueClosedError` only once the
queue is empty; on an open empty queue `get` suspends. -/
structure AioQueue (α : Type) where
  items : List α
  closed : Bool
deriving DecidableEq

/-- Result of `hat.aio.Queue.get` on a queue in a given state. -/
inductive GetOutcome (α : Type) where
  | item (x : α) (rest : AioQueue α)
  | closedError
  | suspended
deriving DecidableEq

def AioQueue.put_nowait {α : Type} (q : AioQueue α) (x : α) :
    Option (AioQueue α) :=
  if q.closed then none else some { q with items := q.items ++ [x] }

def AioQueue.get {α : Type} (q : AioQueue α) : GetOutcome α :=
  match q.items with
  | x :: rest => .item x { q with items := rest }
  | [] => if q.closed then .closedError else .suspended

/-- Result of `Connection.send` (synchronous). -/
inductive SendResult where
  | ok (q : AioQueue (List Nat))
  | connectionError
deriving DecidableEq

/-- `Connection.send`: `put_nowait` on the send queue, with
`QueueClosedError` translated to `ConnectionError`. -/
def conn_send (q : AioQueue (List Nat)) (d : List Nat) : SendResult :=
  match q.put_nowait d with
  | some q' => .ok q'
  | none => .connectionError

/-- Result of one `Connection.receive` call. -/
inductive ReceiveResult where
  | payload (d : List Nat) (q : AioQueue (List Nat))
  | connectionError
  | suspended
deriving DecidableEq

/-- `Connection.receive`: `get` on the receive queue, with
`QueueClosedError` translated to `ConnectionError`. -/
def conn_receive (q : AioQueue (List Nat)) : ReceiveResult :=
  match q.get with
  | .item x rest => .payload x rest
  | .closedError => .connectionError
  | .suspended => .suspended

/-- C8: once the connection is closed (both queues closed), `send` fails
synchronously with `ConnectionError` without enqueueing the payload, and
`receive` still returns each already-delivered payload in arrival order,
failing with `ConnectionError` only when the receive queue is drained. -/
theorem closed_send_receive (q : AioQueue (List Nat))
    (hc : q.closed = true) :
    (∀ d, conn_send q d = .connectionError) ∧
    (∀ x rest, q.items = x :: rest →
      conn_receive q = .payload x { q with items := rest }) ∧
    (q.items = [] → conn_receive q = .connectionError) := by
  refine ⟨?_, ?_, ?_⟩
  · intro d
    simp [conn_send, AioQueue.put_nowait, hc]
  · intro x rest hitems
    simp [conn_receive, AioQueue.get, hitems]
  · intro hitems
    simp [conn_receive, AioQueue.get, hitems, hc]

theorem closed_send_receive_witness :
    (∀ d, conn_send ⟨[[7]], true⟩ d = .connectionError) ∧
    conn_receive ⟨[[7]], true⟩ = .payload [7] ⟨[], true⟩ ∧
    conn_receive ⟨[], true⟩ = .connectionError := by
  have h1 := closed_send_receive ⟨[[7]], true⟩ (by decide)
  have h2 := closed_send_receive ⟨[], true⟩ (by decide)
  exact ⟨h1.1, h1.2.1 [7] [] rfl, h2.2.2 rfl⟩

/-- State of a drain-marker future pushed by `Connection.drain`. -/
inductive FutState where
  | pending
  | completed
  | errored
deriving DecidableEq

/-- An item of the send queue: a user payload or a drain-marker future. -/
inductive SendItem where
  | payload (d : List Nat)
  | drainFuture (fs : FutState)
deriving DecidableEq

/-- A signal a caller can observe during write-loop cleanup: the
`ConnectionError` set on an awaited drain future. -/
inductive CleanupSignal where
  | drainError
deriving DecidableEq

/-- Whether a send-queue item is a drain future that is not yet done. -/
def isPendingFuture : SendItem → Bool
  | .drainFuture .pending => true
  | _ => false

/-- The final drain of `_write_loop`'s cleanup: every remaining item is
dequeued; a drain future that is not done gets `ConnectionError` set (one
signal to its awaiting caller); every other item — in particular every plain
user payload — is dropped with no signal. -/
def write_loop_cleanup : List SendItem → List SendItem × List CleanupSignal
  | [] => ([], [])
  | it :: rest =>
      let (its, sigs) := write_loop_cleanup rest
      match it with
      | .drainFuture .pending =>
          (.drainFuture .errored :: its, .drainError :: sigs)
      | _ => (it :: its, sigs)

/-- C10: when the write loop winds down, every still-pending drain future in
the send queue is completed with `ConnectionError`, while every plain user
payload still queued is silently discarded: the signals emitted are exactly
one `ConnectionError` per pending drain future, so a queue holding only
payloads (or done futures) produces no signal at all for their senders. -/
theorem write_loop_cleanup_spec (items : List SendItem) :
    (write_loop_cleanup items).1 =
      items.map (fun it =>
        if isPendingFuture it then .drainFuture .errored else it) ∧
    (write_loop_cleanup items).2 =
      (items.filter isPendingFuture).map (fun _ => .drainError) ∧
    ((∀ it ∈ items, isPendingFuture it = false) →
      (write_loop_cleanup items).2 = []) := by
  have main : (write_loop_cleanup items).1 =
      items.map (fun it =>
        if isPendingFuture it then .drainFuture .errored else it) ∧
      (write_loop_cleanup items).2 =
        (items.filter isPendingFuture).map (fun _ => .drainError) := by
    induction items with
    | nil => exact ⟨rfl, rfl⟩
    | cons it rest ih =>
        obtain ⟨ih1, ih2⟩ := ih
        cases it with
        | payload d =>
            simp [write_loop_cleanup, ih1, ih2, isPendingFuture]
        | drainFuture fs =>
            cases fs <;>
              simp [write_loop_cleanup, ih1, ih2, isPendingFuture]
  refine ⟨main.1, main.2, ?_⟩
  intro h
  rw [main.2, List.filter_eq_nil_iff.mpr (by simpa using h)]
  rfl

theorem write_loop_cleanup_spec_witness :
    (write_loop_cleanup
        [.payload [1], .drainFuture .pending, .payload [2],
         .drainFuture .completed]).1 =
      [.payload [1], .drainFuture .errored, .payload [2],
       .drainFuture .completed] ∧
    (write_loop_cleanup
        [.payload [1], .drainFuture .pending, .payload [2],
         .drainFuture .completed]).2 = [.drainError] ∧
    (write_loop_cleanup [SendItem.payload [1], .payload [2]]).2 = [] := by
  have h1 := write_loop_cleanup_spec
    [.payload [1], .drainFuture .pending, .payload [2],
     .drainFuture .completed]
  have h2 := write_loop_cleanup_spec [SendItem.payload [1], .payload [2]]
  exact ⟨by rw [h1.1]; rfl, by rw [h1.2.1]; rfl, h2.2.2 (by decide)⟩

end Apci
